import Mathlib

/-!
Shallow embedding of the tetrs gameplay engine (tiehuis/tetrs) and proofs
about its specification claims.

The embedding follows the Rust sources:
- `src/block.rs`   : piece identifiers, rotation data, collision, shifting,
                     rotation with offset, ghost pieces;
- `src/field.rs`   : the playfield, `clear_lines`, `get`, `occupies`;
- `src/controller.rs` : the action controller and its `update` loop;
- `src/engine.rs`  : tick helpers `ticks` / `is_pressed` and the line-clear
                     step of `stat_move`;
- `src/randomizer/mod.rs` and `src/randomizer/gameboy.rs` : the generic
  `preview` / `next` pair generated by the `gen_rand!` macro and the Gameboy
  piece generator;
- `src/statistics.rs` : the statistics counters.

Machine integers (`usize`, `i32`, `u64`) are modelled as `Nat` / `Int`; the
values involved never approach the overflow boundaries.  Rust panics
(assertion failures, out-of-range indexing, division by zero) are modelled
with `Option`.
-/

namespace Tetrs

/-- Piece identifiers, from `block.rs`: `enum Type { I, T, L, J, S, Z, O, None }`.
The source names this enum `Type`, which is reserved in Lean, so it is
named `Id` here (the name used by later revisions of the same repository). -/
inductive Id where
  | I | T | L | J | S | Z | O | None
deriving DecidableEq

/-- The `CLike::to_usize` conversion for piece identifiers (discriminant order). -/
def Id.to_usize : Id → Nat
  | .I => 0
  | .T => 1
  | .L => 2
  | .J => 3
  | .S => 4
  | .Z => 5
  | .O => 6
  | .None => 7

/-- The seven `non-None` variants, from `Type::variants()` in `block.rs`. -/
def Id.variants : List Id := [.I, .T, .L, .J, .S, .Z, .O]

/-- Rotation states, from `lib.rs`: `enum Rotation { R0, R90, R180, R270 }`. -/
inductive Rotation where
  | R0 | R90 | R180 | R270
deriving DecidableEq

/-- `CLike::to_usize` for rotations (discriminant order). -/
def Rotation.to_usize : Rotation → Nat
  | .R0 => 0
  | .R90 => 1
  | .R180 => 2
  | .R270 => 3

/-- `Rotation::from_usize`, defined on values `< 4` (the source asserts). -/
def Rotation.from_usize : Nat → Rotation
  | 0 => .R0
  | 1 => .R90
  | 2 => .R180
  | _ => .R270

/-- `Rotation::clockwise`: `from_usize((to_usize + 4 + 1) % 4)`. -/
def Rotation.clockwise (r : Rotation) : Rotation :=
  Rotation.from_usize ((r.to_usize + 4 + 1) % 4)

/-- `Rotation::anticlockwise`: `from_usize((to_usize + 4 - 1) % 4)`. -/
def Rotation.anticlockwise (r : Rotation) : Rotation :=
  Rotation.from_usize ((r.to_usize + 4 - 1) % 4)

/-- The static rotation table `BLOCK_DATA` from `block.rs`: for each of the
seven pieces, for each of the four rotations, the four `(x, y)` cell offsets.
Transcribed verbatim from the source. -/
def BLOCK_DATA : List (List (List (Nat × Nat))) := [
  [ -- I-block
    [(0, 1), (1, 1), (2, 1), (3, 1)],
    [(2, 0), (2, 1), (2, 2), (2, 3)],
    [(0, 2), (1, 2), (2, 2), (3, 2)],
    [(1, 0), (1, 1), (1, 2), (1, 3)]],
  [ -- T-block
    [(0, 1), (1, 0), (1, 1), (2, 1)],
    [(1, 0), (1, 1), (1, 2), (2, 1)],
    [(0, 1), (1, 1), (1, 2), (2, 1)],
    [(0, 1), (1, 0), (1, 1), (1, 2)]],
  [ -- L-block
    [(0, 1), (1, 1), (2, 0), (2, 1)],
    [(1, 0), (1, 1), (1, 2), (2, 2)],
    [(0, 1), (0, 2), (1, 1), (2, 1)],
    [(0, 0), (1, 0), (1, 1), (1, 2)]],
  [ -- J-block
    [(0, 0), (0, 1), (1, 1), (2, 1)],
    [(1, 0), (1, 1), (1, 2), (2, 0)],
    [(0, 1), (1, 1), (2, 1), (2, 2)],
    [(0, 2), (1, 0), (1, 1), (1, 2)]],
  [ -- S-block
    [(0, 1), (1, 0), (1, 1), (2, 0)],
    [(1, 0), (1, 1), (2, 1), (2, 2)],
    [(0, 2), (1, 1), (1, 2), (2, 1)],
    [(0, 0), (0, 1), (1, 1), (1, 2)]],
  [ -- Z-block
    [(0, 0), (1, 0), (1, 1), (2, 1)],
    [(1, 1), (1, 2), (2, 0), (2, 1)],
    [(0, 1), (1, 1), (1, 2), (2, 2)],
    [(0, 1), (0, 2), (1, 0), (1, 1)]],
  [ -- O-block
    [(1, 0), (1, 1), (2, 0), (2, 1)],
    [(1, 0), (1, 1), (2, 0), (2, 1)],
    [(1, 0), (1, 1), (2, 0), (2, 1)],
    [(1, 0), (1, 1), (2, 0), (2, 1)]]]

/-- Lookup `BLOCK_DATA[id.to_usize()][r.to_usize()]` (as in `Block::data`).
For `Id.None` the source indexes `BLOCK_DATA[7]`, which does not exist and
panics; the lookup returns `[]` in that (never constructed) case. -/
def blockData (id : Id) (r : Rotation) : List (Nat × Nat) :=
  (BLOCK_DATA.getD id.to_usize []).getD r.to_usize []

/-- The playfield, from `field.rs`: width, height, hidden rows, spawn point
and the cell grid `data : Vec<Vec<usize>>` (cell values are `Id` indices,
`Id.None.to_usize = 7` meaning empty). -/
structure Field where
  width : Nat
  height : Nat
  hidden : Nat
  spawn : Int × Int
  data : List (List Nat)
deriving DecidableEq

/-- `Field::new()` / `Default for Field`: a 10 by 25 field of empty cells,
3 hidden rows, spawn at `(4, 0)`. -/
def Field.new : Field :=
  { width := 10
    height := 25
    hidden := 3
    spawn := (4, 0)
    data := List.replicate 25 (List.replicate 10 Id.None.to_usize) }

/-- Direct cell read `data[y][x]` (in-bounds accesses only are performed by
the source; out-of-range indices return the empty value here, a case the
source never evaluates thanks to short-circuiting). -/
def Field.cellAt (f : Field) (x y : Nat) : Nat :=
  (f.data.getD y []).getD x Id.None.to_usize

/-- `Field::get`: asserts `x < width && y < height`, then returns `data[y][x]`.
The assertion failure (a Rust panic) is modelled by `none`. -/
def Field.get (f : Field) (p : Nat × Nat) : Option Nat :=
  if p.1 < f.width ∧ p.2 < f.height then some (f.cellAt p.1 p.2) else none

/-- `Field::occupies`: asserts `x < width && y < height`, then returns
`data[y][x] != Type::None.to_usize()`.  The assertion failure is `none`. -/
def Field.occupies (f : Field) (p : Nat × Nat) : Option Bool :=
  if p.1 < f.width ∧ p.2 < f.height then
    some (decide (f.cellAt p.1 p.2 ≠ Id.None.to_usize))
  else none

/-- The row-retention test from `Field::clear_lines`:
`x.iter().any(|&x| x == block::Type::None.to_usize())`. -/
def rowHasEmptyCell (row : List Nat) : Bool :=
  row.any (fun c => decide (c = Id.None.to_usize))

/-- `Field::clear_lines`: retain the rows containing at least one empty cell,
compute `lines = height - data.len()`, insert that many fresh empty rows at
index 0, and return `lines` together with the updated field. -/
def Field.clear_lines (f : Field) : Field × Nat :=
  let retained := f.data.filter rowHasEmptyCell
  let lines := f.height - retained.length
  ({ f with data := List.replicate lines (List.replicate f.width Id.None.to_usize) ++ retained },
   lines)

/-- Movement directions, from `lib.rs`. -/
inductive Direction where
  | None | Left | Right | Up | Down
deriving DecidableEq

/-- A single tetrimino, from `block.rs`: coordinates, identifier, rotation
state, and the rotation data slice (`data` always points into `BLOCK_DATA`
for source-constructed blocks). -/
structure Block where
  x : Int
  y : Int
  id : Id
  r : Rotation
  data : List (Nat × Nat)
deriving DecidableEq

/-- `Block::new(id)`: position `(4, 0)`, rotation `R0`, data from the table. -/
def Block.new (id : Id) : Block :=
  { x := 4, y := 0, id := id, r := .R0, data := blockData id .R0 }

/-- `Block::offset(id, r)`: componentwise minimum of the rotation data
offsets, folded from `(100, 100)`. -/
def Block.offset (id : Id) (r : Rotation) : Int × Int :=
  ((blockData id r).map (fun p => ((p.1 : Int), (p.2 : Int)))).foldl
    (fun ab xy => (min ab.1 xy.1, min ab.2 xy.2)) (100, 100)

/-- `Block::leading`: `Block::offset(self.id, self.r)` (reads the table, not
the stored `data` slice). -/
def Block.leading (b : Block) : Int × Int :=
  Block.offset b.id b.r

/-- The componentwise-maximum fold used by `Block::trailing`, on a given
data slice. -/
def trailingPair (l : List (Nat × Nat)) : Int × Int :=
  (l.map (fun p => ((p.1 : Int), (p.2 : Int)))).foldl
    (fun ab xy => (max ab.1 xy.1, max ab.2 xy.2)) (0, 0)

/-- `Block::trailing`: componentwise maximum of the stored `data` offsets,
folded from `(0, 0)`. -/
def Block.trailing (b : Block) : Int × Int :=
  trailingPair b.data

/-- `Block::collision_at(field, (xo, yo))`: true when any absolute cell
`(x, y) = (self.x + dx + xo, self.y + dy + yo)` satisfies
`x - leading.0 < 0 || x + trailing.0 > width || y - leading.1 < 0 ||
y + trailing.1 > height || field.at((x, y)) != None`.  The field read is
reached (short-circuit `||`) only when the four bound tests fail, which for
table data keeps both indices in range, so the total `cellAt` read agrees
with the source's asserted access. -/
def Block.collision_at (b : Block) (f : Field) (off : Int × Int) : Bool :=
  b.data.any fun p =>
    let x : Int := b.x + (p.1 : Int) + off.1
    let y : Int := b.y + (p.2 : Int) + off.2
    let maxf := b.trailing
    let minf := b.leading
    decide (x - minf.1 < 0) || decide (x + maxf.1 > (f.width : Int)) ||
    decide (y - minf.2 < 0) || decide (y + maxf.2 > (f.height : Int)) ||
    decide (f.cellAt x.toNat y.toNat ≠ Id.None.to_usize)

/-- `Block::collision(field)`: `collision_at(field, (0, 0))`. -/
def Block.collision (b : Block) (f : Field) : Bool :=
  b.collision_at f (0, 0)

/-- `Block::shift_raw`: move by the offset unless the moved block collides;
returns the (possibly unchanged) block and whether the move happened. -/
def Block.shift_raw (b : Block) (f : Field) (off : Int × Int) : Block × Bool :=
  if b.collision_at f off then (b, false)
  else ({ b with x := b.x + off.1, y := b.y + off.2 }, true)

/-- The direction vectors used by `Block::shift`; `Up` and `None` hit the
`panic!` arm of the source `match`, modelled by `none`. -/
def Direction.vec : Direction → Option (Int × Int)
  | .Left => some (-1, 0)
  | .Right => some (1, 0)
  | .Down => some (0, 1)
  | _ => Option.none

/-- `Block::shift(field, direction)`. -/
def Block.shift (b : Block) (f : Field) (d : Direction) : Option (Block × Bool) :=
  (d.vec).map fun v => b.shift_raw f v

/-- One downward step of the `while self.shift(&field, Down) {}` loop of
`Block::shift_extend`, with an explicit iteration budget.  The budget is an
upper bound on the number of loop iterations: a block with non-empty data
stops moving once `y + dy + 1 + trailing.1 > height` for some cell, so the
loop runs at most `(height + 1 - y).toNat` times.  (For a block with empty
rotation data — only constructible from `Id.None`, where the source panics
on table lookup — the source loop would never terminate.) -/
def Block.shift_extend_down_fuel (f : Field) : Nat → Block → Block
  | 0, b => b
  | fuel + 1, b =>
    if b.collision_at f (0, 1) then b
    else Block.shift_extend_down_fuel f fuel { b with y := b.y + 1 }

/-- `Block::shift_extend(field, Down)`: repeatedly shift down until blocked. -/
def Block.shift_extend_down (b : Block) (f : Field) : Block :=
  Block.shift_extend_down_fuel f (((f.height : Int) + 1 - b.y).toNat + 1) b

/-- `Block::rotation_raw`: set the rotation and re-point `data` at the
corresponding `BLOCK_DATA` row. -/
def Block.rotation_raw (b : Block) (rotation : Rotation) : Block :=
  { b with r := rotation, data := blockData b.id rotation }

/-- The new-rotation computation at the top of `Block::rotate_with_offset`:
`R0` is the identity, `R90` one clockwise step, `R180` two, `R270` one
anticlockwise step. -/
def targetRotation (r : Rotation) : Rotation → Rotation
  | .R0 => r
  | .R90 => r.clockwise
  | .R180 => r.clockwise.clockwise
  | .R270 => r.anticlockwise

/-- `Block::rotate_with_offset(field, rotation, (x, y))`: tentatively apply
the new rotation, then `shift_raw` by the offset; on failure restore the
original rotation and report `false`. -/
def Block.rotate_with_offset (b : Block) (f : Field) (rotation : Rotation)
    (off : Int × Int) : Block × Bool :=
  let original_rotation := b.r
  let b1 := b.rotation_raw (targetRotation b.r rotation)
  let s := b1.shift_raw f off
  if s.2 then (s.1, true)
  else (s.1.rotation_raw original_rotation, false)

/-- `Block::rotate(field, rotation)`: `rotate_with_offset` with offset `(0, 0)`. -/
def Block.rotate (b : Block) (f : Field) (rotation : Rotation) : Block × Bool :=
  b.rotate_with_offset f rotation (0, 0)

/-- `Block::ghost(field)`: clone and `shift_extend` downwards. -/
def Block.ghost (b : Block) (f : Field) : Block :=
  b.shift_extend_down f

/-- The controller state from `controller.rs`: per-action activity flags and
press-duration counters, eight actions (`MoveLeft` .. `Quit`) indexed as in
the `Action` enum. -/
structure Controller where
  time : Fin 8 → Nat
  active : Fin 8 → Bool

/-- `Controller::new()`: every action inactive with timer zero. -/
def Controller.new : Controller :=
  { time := fun _ => 0, active := fun _ => false }

/-- `Controller::activate(action)`. -/
def Controller.activate (c : Controller) (a : Fin 8) : Controller :=
  { c with active := Function.update c.active a true }

/-- `Controller::deactivate(action)`. -/
def Controller.deactivate (c : Controller) (a : Fin 8) : Controller :=
  { c with active := Function.update c.active a false }

/-- `Controller::deactivate_all()`: clears every flag, keeps the timers. -/
def Controller.deactivate_all (c : Controller) : Controller :=
  { c with active := fun _ => false }

/-- `Controller::update()`: `time[i] = if active[i] { time[i] + 1 } else { 0 }`. -/
def Controller.update (c : Controller) : Controller :=
  { c with time := fun i => if c.active i then c.time i + 1 else 0 }

/-- The controller operations a caller can interleave between ticks. -/
inductive CtlOp where
  | activate (a : Fin 8)
  | deactivate (a : Fin 8)
  | deactivateAll
  | update

/-- Apply one controller operation. -/
def CtlOp.step (c : Controller) : CtlOp → Controller
  | .activate a => c.activate a
  | .deactivate a => c.deactivate a
  | .deactivateAll => c.deactivate_all
  | .update => c.update

/-- Run a history of controller operations, listed most-recent first, from
`Controller::new()`. -/
def runCtl : List CtlOp → Controller
  | [] => Controller.new
  | op :: rest => CtlOp.step (runCtl rest) op

/-- The number of consecutive `update` calls, counting back from the end of
the history, at which the action was active at the moment of the call.
(Defined by replaying the history; independent of the stored timers.) -/
def activeStreak : List CtlOp → Fin 8 → Nat
  | [], _ => 0
  | .update :: rest, i =>
      if (runCtl rest).active i then activeStreak rest i + 1 else 0
  | .activate _ :: rest, i => activeStreak rest i
  | .deactivate _ :: rest, i => activeStreak rest i
  | .deactivateAll :: rest, i => activeStreak rest i

/-- The statistics counters from `statistics.rs`. -/
structure Statistics where
  lines : Nat
  pieces : Nat
  singles : Nat
  doubles : Nat
  triples : Nat
  fours : Nat
deriving DecidableEq

/-- `Statistics::new()`: all counters zero. -/
def Statistics.new : Statistics :=
  { lines := 0, pieces := 0, singles := 0, doubles := 0, triples := 0, fours := 0 }

/-- `Engine::ticks(val)`: `val / self.mspt`. -/
def ticks (mspt val : Nat) : Nat :=
  val / mspt

/-- `Engine::is_pressed(action, rate)` from `engine.rs`, as a function of the
action's controller timer `sct`, the `das` setting, the `rate` argument and
`mspt`:  `sct == 1 || (sct >= ticks(das) && (sct - ticks(das)) % ticks(rate) == 0)`.
Rust `||` and `&&` short-circuit, so the remainder is evaluated only when
`sct != 1` and `sct >= ticks(das)`; there `% 0` panics, modelled by `none`. -/
def is_pressed (mspt das sct rate : Nat) : Option Bool :=
  if sct = 1 then some true
  else if ticks mspt das ≤ sct then
    if ticks mspt rate = 0 then Option.none
    else some (decide ((sct - ticks mspt das) % ticks mspt rate = 0))
  else some false

/-- The line-clear step of `Engine::stat_move` (engine.rs lines 329-334):
`self.fd.clear_lines();` — the returned count is discarded and the engine's
statistics component `st` is not touched (no statement in `engine.rs` writes
to `st`).  The function returns the new field, the statistics value after
the step, and the count `clear_lines` reported. -/
def stat_move_line_clear (fd : Field) (st : Statistics) : Field × Statistics × Nat :=
  let r := fd.clear_lines
  (r.1, st, r.2)

/-- The generic randomizer state operated on by the `gen_rand!` macro in
`randomizer/mod.rs`: the lookahead buffer (a `VecDeque` with the capacity
requested at construction) plus the variant-specific generator, modelled as
an abstract infinite stream `gen` with a read position `pos`. -/
structure Randomizer where
  cap : Nat
  lookahead : List Id
  gen : Nat → Id
  pos : Nat

/-- The variant-specific `next_block` call: draw the next stream element. -/
def Randomizer.next_block (s : Randomizer) : Id × Randomizer :=
  (s.gen s.pos, { s with pos := s.pos + 1 })

/-- `next()` from `gen_rand!`: generate directly when the buffer is empty,
else pop the buffer head. -/
def Randomizer.next (s : Randomizer) : Id × Randomizer :=
  match s.lookahead with
  | [] => s.next_block
  | v :: rest => (v, { s with lookahead := rest })

/-- `preview(amount)` from `gen_rand!`:
`assert!(amount < self.lookahead.capacity())` (panic modelled by `none`);
then, if the buffer is shorter than `amount`, push ONE generated block; then
return the first `amount` buffered elements.  The updated state is returned
alongside. -/
def Randomizer.preview (s : Randomizer) (amount : Nat) : Option (List Id × Randomizer) :=
  if amount < s.cap then
    let s1 :=
      if s.lookahead.length < amount then
        let g := s.next_block
        { g.2 with lookahead := g.2.lookahead ++ [g.1] }
      else s
    some (s1.lookahead.take amount, s1)
  else Option.none

/-- The identifiers produced by the next `n` calls to `next()`. -/
def Randomizer.nexts (s : Randomizer) : Nat → List Id
  | 0 => []
  | k + 1 =>
    let r := s.next
    r.1 :: r.2.nexts k

/-- `GameboyRandomizer::next_block` from `randomizer/gameboy.rs`, as a
function of the stored `prev` index and the rng draw `r` (the source draws
`r = rng.gen_range(0, 6 * 7 - 3)`, so `r < 39`):
`prev += ((r / 5) + 1) % variants.len(); variants[prev]`.  The indexing
panic for `prev >= 7` is modelled by `none`.  Returns the produced piece and
the updated `prev`. -/
def gameboy_next_block (prev r : Nat) : Option Id × Nat :=
  let prev' := prev + ((r / 5) + 1) % Id.variants.length
  (Id.variants.get? prev', prev')

/-- Collision as worded by the specification (section 4.3), for comparison
with the source's `Block::collision`: true iff some absolute cell `(x, y)`
has `x < 0 || y < 0 || x >= field.width || y >= field.height` or the field
cell there is non-empty. -/
def collides_spec (b : Block) (f : Field) : Bool :=
  b.data.any fun p =>
    let x : Int := b.x + (p.1 : Int)
    let y : Int := b.y + (p.2 : Int)
    decide (x < 0) || decide (y < 0) ||
    decide ((f.width : Int) ≤ x) || decide ((f.height : Int) ≤ y) ||
    decide (f.cellAt x.toNat y.toNat ≠ Id.None.to_usize)

/-- The characterization of `Block::collision_at` proved below for blocks
whose `data` slice agrees with the rotation table: the block collides at an
offset exactly when its base position (plus offset) is left of column 0 or
above row 0, or the base plus twice the trailing extent overshoots the right
or bottom edge, or some absolute cell is occupied. -/
def collisionBoundsChar (b : Block) (f : Field) (xo yo : Int) : Prop :=
  b.x + xo < 0 ∨ b.y + yo < 0 ∨
  b.x + xo + 2 * b.trailing.1 > (f.width : Int) ∨
  b.y + yo + 2 * b.trailing.2 > (f.height : Int) ∨
  ∃ p ∈ b.data,
    f.cellAt (b.x + (p.1 : Int) + xo).toNat (b.y + (p.2 : Int) + yo).toNat ≠ Id.None.to_usize

/-- The conjunction of postconditions of `Field::clear_lines` proved below
(for well-formed fields of positive width): the returned count is the number
of rows without any empty cell; below the inserted rows the surviving rows
appear filtered in order; the row count equals `height`; the inserted top
rows are entirely empty; and every remaining row has an empty cell. -/
def clearLinesPost (f : Field) : Prop :=
  (f.clear_lines.2 = (f.data.filter fun row => !(rowHasEmptyCell row)).length) ∧
  (f.clear_lines.1.data.drop f.clear_lines.2 = f.data.filter rowHasEmptyCell) ∧
  (f.clear_lines.1.data.length = f.height) ∧
  (∀ row ∈ f.clear_lines.1.data.take f.clear_lines.2, ∀ cell ∈ row, cell = Id.None.to_usize) ∧
  (∀ row ∈ f.clear_lines.1.data, rowHasEmptyCell row = true)

/-! ## Theorems -/

/-- C3 counterexample: on the default field, `occupies((10, 0))` hits the
assertion `x < width` and panics (modelled by `none`); the claim says it
returns `false` without failing. -/
theorem claim_C3_counterexample :
    Field.new.occupies (10, 0) = Option.none := by
  decide

/-- C3 (amended): `Field::occupies` panics exactly on out-of-bounds
coordinates, and otherwise agrees with testing `Field::get` for a non-empty
cell value. -/
theorem claim_C3_occupies_characterization (f : Field) (p : Nat × Nat) :
    (f.occupies p = Option.none ↔ (f.width ≤ p.1 ∨ f.height ≤ p.2)) ∧
    f.occupies p = (f.get p).map fun v => decide (v ≠ Id.None.to_usize) := by
  unfold Field.occupies Field.get
  by_cases h : p.1 < f.width ∧ p.2 < f.height
  · refine ⟨?_, by simp only [if_pos h, Option.map_some']⟩
    simp only [if_pos h, Option.some_ne_none, false_iff]
    omega
  · refine ⟨?_, by simp only [if_neg h, Option.map_none']⟩
    simp only [if_neg h, true_iff]
    omega

/-- C4: evaluating the line-clear step of `Engine::stat_move` on a field
whose bottom row is completely filled: `clear_lines` reports one cleared
line, but the statistics come out exactly as they went in (all counters of
`Statistics::new` still zero), because `stat_move` discards the count and
`engine.rs` never writes to the statistics component. -/
theorem claim_C4_statistics_not_updated :
    stat_move_line_clear ⟨2, 2, 0, (0, 0), [[0, 0], [7, 7]]⟩ Statistics.new =
      (⟨2, 2, 0, (0, 0), [[7, 7], [7, 7]]⟩, Statistics.new, 1) := by
  decide

/-- C9: evaluating `GameboyRandomizer::next_block` with stored index
`prev = 6` (a value the constructor can draw directly) and rng draw `0`:
the code computes `prev += ((0 / 5) + 1) % 7`, i.e. `prev = 7`, and
`variants[7]` is out of bounds — the indexing panics (modelled by `none`).
The missing reduction of the sum modulo 7 is the bug the claim rules out. -/
theorem claim_C9_gameboy_index_out_of_bounds :
    gameboy_next_block 6 0 = (Option.none, 7) := by
  decide

/-- C7 counterexample: with `mspt = 32` and the default settings
`das = 180`, `arr = 16` — a reachable configuration, since `mspt` is a
public `EngineOptions` field — `ticks(das) = 5` and `ticks(arr) = 0`.  At
timer value `sct = 5 = ticks(das)` the claim's formula holds (5 ≠ 1, but
`5 ≥ ticks(das)` and 0 divides `5 - 5 = 0`), yet the source evaluates
`(sct - das) % 0` and panics with a division by zero (modelled by `none`)
instead of reporting the predicate as pressed. -/
theorem claim_C7_counterexample :
    is_pressed 32 180 5 16 = Option.none ∧
    decide ((5 : Nat) = 1 ∨ (ticks 32 180 ≤ 5 ∧ ticks 32 16 ∣ (5 - ticks 32 180))) = true := by
  constructor
  · decide
  · decide

/-- C7 (amended): whenever the converted autorepeat rate `ticks(rate)` is
non-zero, `Engine::is_pressed` returns true exactly when the action timer
is 1, or the timer has reached `ticks(das)` and the elapsed ticks past DAS
are divisible by `ticks(rate)`.  (When `ticks(rate) = 0`, i.e.
`rate < mspt`, and the timer is neither 1 nor below `ticks(das)`, the
source's `%` operation panics instead of returning a value.) -/
theorem claim_C7_is_pressed (mspt das sct rate : Nat) (h : ticks mspt rate ≠ 0) :
    is_pressed mspt das sct rate =
      some (decide (sct = 1 ∨
        (ticks mspt das ≤ sct ∧ ticks mspt rate ∣ (sct - ticks mspt das)))) := by
  unfold is_pressed
  by_cases h1 : sct = 1
  · simp [h1]
  · by_cases h2 : ticks mspt das ≤ sct
    · simp only [if_neg h1, if_pos h2, if_neg h, Option.some.injEq, decide_eq_decide,
        Nat.dvd_iff_mod_eq_zero]
      tauto
    · simp only [if_neg h1, if_neg h2, Option.some.injEq]
      rw [eq_comm, decide_eq_false_iff_not]
      tauto

/-- Witness for C7 at `mspt = 16`, `das = 180`, `rate = 16`, timer 12. -/
theorem claim_C7_witness :
    ticks 16 16 ≠ 0 ∧
    is_pressed 16 180 12 16 =
      some (decide (12 = 1 ∨ (ticks 16 180 ≤ 12 ∧ ticks 16 16 ∣ (12 - ticks 16 180)))) :=
  ⟨by decide, claim_C7_is_pressed 16 180 12 16 (by decide)⟩

/-- C2 counterexample: on a well-formed width-0 field with a single (empty)
row, `clear_lines` removes the row (a zero-width row has no `Id.None` cell,
so it counts as completely filled), returns 1, and re-inserts a fresh
zero-width row — which again contains only filled cells.  So "no
fully-filled row remains" fails for fields of width 0. -/
theorem claim_C2_counterexample :
    (Field.clear_lines ⟨0, 1, 0, (0, 0), [[]]⟩).2 = 1 ∧
    (Field.clear_lines ⟨0, 1, 0, (0, 0), [[]]⟩).1.data.any
      (fun row => !(rowHasEmptyCell row)) = true := by
  decide

/-- Splitting a list's length by a Boolean predicate. -/
theorem length_filter_add_length_filter_not (l : List (List Nat)) (p : List Nat → Bool) :
    (l.filter p).length + (l.filter fun a => !(p a)).length = l.length := by
  induction l with
  | nil => rfl
  | cons x xs ih =>
    by_cases h : p x <;> simp [List.filter_cons, h, ih] <;> omega

/-- C2 (amended): for a well-formed field (`data.length = height`) of
positive width, `clear_lines` removes exactly the rows without an empty
cell and returns their number, keeps the surviving rows in order below the
inserted rows, restores the row count to `height`, makes the inserted top
rows entirely empty, and leaves no fully-filled row. -/
theorem claim_C2_clear_lines (f : Field)
    (hlen : f.data.length = f.height) (hw : 0 < f.width) : clearLinesPost f := by
  have hsplit := length_filter_add_length_filter_not f.data rowHasEmptyCell
  have hle : (f.data.filter rowHasEmptyCell).length ≤ f.data.length :=
    List.length_filter_le _ _
  have hc : f.clear_lines.2 = f.height - (f.data.filter rowHasEmptyCell).length := rfl
  have hdata : f.clear_lines.1.data =
      List.replicate f.clear_lines.2 (List.replicate f.width Id.None.to_usize) ++
      f.data.filter rowHasEmptyCell := rfl
  refine ⟨?_, ?_, ?_, ?_, ?_⟩
  · rw [hc]
    omega
  · rw [hdata]
    have h0 := List.drop_left
      (List.replicate f.clear_lines.2 (List.replicate f.width Id.None.to_usize))
      (f.data.filter rowHasEmptyCell)
    rwa [List.length_replicate] at h0
  · rw [hdata, List.length_append, List.length_replicate, hc]
    omega
  · intro row hrow cell hcell
    rw [hdata] at hrow
    have htake : List.take f.clear_lines.2
        (List.replicate f.clear_lines.2 (List.replicate f.width Id.None.to_usize) ++
          f.data.filter rowHasEmptyCell) =
        List.replicate f.clear_lines.2 (List.replicate f.width Id.None.to_usize) := by
      have h1 := List.take_left
        (List.replicate f.clear_lines.2 (List.replicate f.width Id.None.to_usize))
        (f.data.filter rowHasEmptyCell)
      rwa [List.length_replicate] at h1
    rw [htake] at hrow
    have := List.eq_of_mem_replicate hrow
    subst this
    exact List.eq_of_mem_replicate hcell
  · intro row hrow
    rw [hdata] at hrow
    rcases List.mem_append.mp hrow with hl | hr
    · have := List.eq_of_mem_replicate hl
      subst this
      rw [rowHasEmptyCell, List.any_eq_true]
      exact ⟨Id.None.to_usize, List.mem_replicate.mpr ⟨by omega, rfl⟩, by simp⟩
    · exact List.of_mem_filter hr

/-- Witness for C2 on a 2-wide, 3-high field whose middle row is full. -/
theorem claim_C2_witness :
    (⟨2, 3, 0, (0, 0), [[7, 7], [0, 0], [7, 0]]⟩ : Field).data.length =
      (⟨2, 3, 0, (0, 0), [[7, 7], [0, 0], [7, 0]]⟩ : Field).height ∧
    0 < (⟨2, 3, 0, (0, 0), [[7, 7], [0, 0], [7, 0]]⟩ : Field).width ∧
    clearLinesPost ⟨2, 3, 0, (0, 0), [[7, 7], [0, 0], [7, 0]]⟩ :=
  ⟨rfl, by decide, claim_C2_clear_lines _ rfl (by decide)⟩

/-- C5 counterexample, in two parts.  With lookahead capacity 5 and an empty
buffer, `preview(3)` (so `3 ≤ 5`) returns only one piece, not three: the
source grows the buffer with an `if`, adding at most one generated block.
And with capacity 2, `preview(2)` (so `2 ≤ 2`) trips the assertion
`amount < capacity` and panics (modelled by `none`), although the claim says
`preview(n)` only panics for `n > L`. -/
theorem claim_C5_counterexample :
    (Randomizer.preview ⟨5, [], fun _ => Id.I, 0⟩ 3).map (fun r => r.1) = some [Id.I] ∧
    Randomizer.preview ⟨2, [], fun _ => Id.I, 0⟩ 2 = Option.none := by
  constructor
  · rfl
  · rfl

/-- While the buffer holds at least `k` identifiers, the next `k` calls to
`next()` pop exactly the first `k` buffered identifiers, in order. -/
theorem nexts_eq_take :
    ∀ (k : Nat) (s : Randomizer), k ≤ s.lookahead.length →
      s.nexts k = s.lookahead.take k := by
  intro k
  induction k with
  | zero =>
    intro s _
    rfl
  | succ k ih =>
    intro s h
    match hbuf : s.lookahead with
    | [] =>
      rw [hbuf] at h
      exact absurd h (by simp)
    | v :: rest =>
      have hnext : s.next = (v, { s with lookahead := rest }) := by
        unfold Randomizer.next
        rw [hbuf]
      have hrest : k ≤ rest.length := by
        rw [hbuf] at h
        simpa using h
      have hstep : s.nexts (k + 1) = (s.next).1 :: ((s.next).2.nexts k) := rfl
      rw [hstep, hnext, List.take_succ_cons]
      show v :: Randomizer.nexts { s with lookahead := rest } k = v :: List.take k rest
      rw [ih _ hrest]

/-- C5 (amended): for `n` strictly below the lookahead capacity, `preview`
does not panic; it grows the buffer by at most one generated block (only
when the buffer is shorter than `n`), returns the first
`min n (new buffer length)` buffered identifiers — which can be fewer than
`n` — and those identifiers are exactly what the same number of subsequent
`next()` calls produce. -/
theorem claim_C5_preview (s : Randomizer) (n : Nat) (h : n < s.cap) :
    ∃ l s1, s.preview n = some (l, s1) ∧
      l = s1.lookahead.take n ∧
      l.length = min n (if s.lookahead.length < n then s.lookahead.length + 1
                        else s.lookahead.length) ∧
      s1.nexts l.length = l := by
  unfold Randomizer.preview
  rw [if_pos h]
  by_cases hl : s.lookahead.length < n
  · rw [if_pos hl]
    refine ⟨_, _, rfl, rfl, ?_, ?_⟩
    · show (List.take n (s.lookahead ++ [s.gen s.pos])).length =
        min n (if s.lookahead.length < n then s.lookahead.length + 1
               else s.lookahead.length)
      rw [if_pos hl, List.length_take, List.length_append, List.length_singleton]
    · show Randomizer.nexts
        { cap := s.cap, lookahead := s.lookahead ++ [s.gen s.pos], gen := s.gen,
          pos := s.pos + 1 }
        (List.take n (s.lookahead ++ [s.gen s.pos])).length =
        List.take n (s.lookahead ++ [s.gen s.pos])
      have hlen : (List.take n (s.lookahead ++ [s.gen s.pos])).length =
          s.lookahead.length + 1 := by
        rw [List.length_take, List.length_append, List.length_singleton]
        omega
      have htake : List.take n (s.lookahead ++ [s.gen s.pos]) =
          s.lookahead ++ [s.gen s.pos] := by
        apply List.take_of_length_le
        rw [List.length_append, List.length_singleton]
        omega
      rw [hlen, htake]
      have hx := nexts_eq_take (s.lookahead.length + 1)
        { cap := s.cap, lookahead := s.lookahead ++ [s.gen s.pos], gen := s.gen,
          pos := s.pos + 1 }
        (by simp)
      rw [hx]
      apply List.take_of_length_le
      simp
  · rw [if_neg hl]
    refine ⟨_, _, rfl, rfl, ?_, ?_⟩
    · show (List.take n s.lookahead).length =
        min n (if s.lookahead.length < n then s.lookahead.length + 1
               else s.lookahead.length)
      rw [if_neg hl, List.length_take]
    · show Randomizer.nexts s (List.take n s.lookahead).length = List.take n s.lookahead
      have hlen : (List.take n s.lookahead).length = n := by
        rw [List.length_take]
        omega
      rw [hlen]
      exact nexts_eq_take n s (by omega)

/-- Witness for C5: capacity 3, one buffered piece, `preview(2)`. -/
theorem claim_C5_witness :
    2 < (⟨3, [Id.T], fun _ => Id.I, 0⟩ : Randomizer).cap ∧
    ∃ l s1, Randomizer.preview ⟨3, [Id.T], fun _ => Id.I, 0⟩ 2 = some (l, s1) ∧
      l = s1.lookahead.take 2 ∧
      l.length = min 2 (if (⟨3, [Id.T], fun _ => Id.I, 0⟩ : Randomizer).lookahead.length < 2
                        then (⟨3, [Id.T], fun _ => Id.I, 0⟩ : Randomizer).lookahead.length + 1
                        else (⟨3, [Id.T], fun _ => Id.I, 0⟩ : Randomizer).lookahead.length) ∧
      s1.nexts l.length = l :=
  ⟨by decide, claim_C5_preview ⟨3, [Id.T], fun _ => Id.I, 0⟩ 2 (by decide)⟩

/-- In every controller state reachable by a history of operations, each
action's timer equals the streak of consecutive `update` calls (ending with
the most recent operation processed) at which the action was active. -/
theorem runCtl_time_eq_streak (l : List CtlOp) (i : Fin 8) :
    (runCtl l).time i = activeStreak l i := by
  induction l with
  | nil => rfl
  | cons op rest ih =>
    cases op with
    | update =>
      show (if (runCtl rest).active i then (runCtl rest).time i + 1 else 0) = _
      rw [activeStreak]
      by_cases h : (runCtl rest).active i
      · rw [if_pos h, if_pos h, ih]
      · rw [if_neg h, if_neg h]
    | activate a =>
      show (runCtl rest).time i = _
      rw [activeStreak]
      exact ih
    | deactivate a =>
      show (runCtl rest).time i = _
      rw [activeStreak]
      exact ih
    | deactivateAll =>
      show (runCtl rest).time i = _
      rw [activeStreak]
      exact ih

/-- C8: immediately after `Controller::update()` — that is, for any history
whose most recent operation is `update` — an action's timer is zero exactly
when the action is inactive, and the timer always equals the number of
consecutive `update` calls (including this one) at which the action was
active. -/
theorem claim_C8_controller_invariant (rest : List CtlOp) (i : Fin 8) :
    ((runCtl (CtlOp.update :: rest)).time i = 0 ↔
      (runCtl (CtlOp.update :: rest)).active i = false) ∧
    (runCtl (CtlOp.update :: rest)).time i = activeStreak (CtlOp.update :: rest) i := by
  refine ⟨?_, runCtl_time_eq_streak _ i⟩
  show (if (runCtl rest).active i then (runCtl rest).time i + 1 else 0) = 0 ↔
    (runCtl rest).active i = false
  by_cases h : (runCtl rest).active i
  · rw [if_pos h]
    simp [h]
  · rw [if_neg h]
    simp [h]

/-- The componentwise-maximum fold never goes below its starting value. -/
theorem foldl_max_pair_le (l : List (Int × Int)) :
    ∀ a : Int × Int,
      a.1 ≤ (l.foldl (fun ab xy => (max ab.1 xy.1, max ab.2 xy.2)) a).1 ∧
      a.2 ≤ (l.foldl (fun ab xy => (max ab.1 xy.1, max ab.2 xy.2)) a).2 := by
  induction l with
  | nil => exact fun a => ⟨le_refl _, le_refl _⟩
  | cons x xs ih =>
    intro a
    rw [List.foldl_cons]
    refine ⟨le_trans (le_max_left a.1 x.1) ?_, le_trans (le_max_left a.2 x.2) ?_⟩
    · exact (ih (max a.1 x.1, max a.2 x.2)).1
    · exact (ih (max a.1 x.1, max a.2 x.2)).2

/-- The trailing extent of any data slice is componentwise non-negative. -/
theorem trailingPair_nonneg (l : List (Nat × Nat)) :
    (0 : Int) ≤ (trailingPair l).1 ∧ (0 : Int) ≤ (trailingPair l).2 := by
  unfold trailingPair
  exact foldl_max_pair_le _ ((0 : Int), (0 : Int))

/-- A block with non-empty data sitting at or below the bottom edge always
collides one cell further down (the `y + trailing.1 > height` test fires). -/
theorem collision_down_of_y_ge (b : Block) (f : Field) (hd : b.data ≠ [])
    (hy : (f.height : Int) ≤ b.y) : b.collision_at f (0, 1) = true := by
  obtain ⟨p, hp⟩ := List.exists_mem_of_ne_nil b.data hd
  unfold Block.collision_at
  rw [List.any_eq_true]
  refine ⟨p, hp, ?_⟩
  have ht : (0 : Int) ≤ (b.trailing).2 := (trailingPair_nonneg b.data).2
  simp only [Bool.or_eq_true, decide_eq_true_eq]
  left; right
  show b.y + (p.2 : Int) + (1 : Int) + (b.trailing).2 > (f.height : Int)
  omega

/-- Contrapositive: if the downward collision test fails, the block is still
strictly above the bottom edge. -/
theorem y_lt_of_collision_down_false (b : Block) (f : Field) (hd : b.data ≠ [])
    (hc : b.collision_at f (0, 1) = false) : b.y < (f.height : Int) := by
  by_contra hcon
  push_neg at hcon
  rw [collision_down_of_y_ge b f hd hcon] at hc
  exact Bool.noConfusion hc

/-- With enough budget, the downward extension loop reaches a resting block:
one that collides one cell further down.  The data slice is unchanged. -/
theorem shift_extend_down_fuel_rest (f : Field) :
    ∀ (fuel : Nat) (b : Block), b.data ≠ [] →
      ((f.height : Int) + 1 - b.y).toNat ≤ fuel →
      (Block.shift_extend_down_fuel f fuel b).collision_at f (0, 1) = true ∧
      (Block.shift_extend_down_fuel f fuel b).data = b.data := by
  intro fuel
  induction fuel with
  | zero =>
    intro b hd hle
    have hy : (f.height : Int) ≤ b.y := by omega
    exact ⟨collision_down_of_y_ge b f hd hy, rfl⟩
  | succ n ih =>
    intro b hd hle
    by_cases h : b.collision_at f (0, 1)
    · rw [Block.shift_extend_down_fuel, if_pos h]
      exact ⟨h, rfl⟩
    · have hy := y_lt_of_collision_down_false b f hd (by simpa using h)
      rw [Block.shift_extend_down_fuel, if_neg h]
      exact ih { b with y := b.y + 1 } hd (by simp only []; omega)

/-- A ghost block rests: it collides one cell further down, and it keeps the
original data slice. -/
theorem ghost_rests (b : Block) (f : Field) (hd : b.data ≠ []) :
    (b.ghost f).collision_at f (0, 1) = true ∧ (b.ghost f).data = b.data :=
  shift_extend_down_fuel_rest f _ b hd (Nat.le_succ _)

/-- C10: ghost is idempotent — for any block with non-empty rotation data
(every source-constructible block; for empty data the source loop would not
terminate), taking the ghost of the ghost returns the ghost unchanged: the
ghost already rests at its lowest non-colliding position. -/
theorem claim_C10_ghost_idempotent (b : Block) (f : Field) (hd : b.data ≠ []) :
    (b.ghost f).ghost f = b.ghost f := by
  obtain ⟨hc, _⟩ := ghost_rests b f hd
  show Block.shift_extend_down_fuel f _ (b.ghost f) = b.ghost f
  rw [Block.shift_extend_down_fuel, if_pos hc]

/-- Witness for C10: the S-piece dropped on the default empty field. -/
theorem claim_C10_witness :
    (Block.new Id.S).data ≠ [] ∧
    ((Block.new Id.S).ghost Field.new).ghost Field.new = (Block.new Id.S).ghost Field.new :=
  ⟨by decide, claim_C10_ghost_idempotent (Block.new Id.S) Field.new (by decide)⟩

/-- C6: `rotate_with_offset` interprets the argument as
{R0: identity, R90: clockwise, R180: two clockwise, R270: anticlockwise}
applied to the current rotation.  For a block whose data slice agrees with
the rotation table, if the tentatively rotated-and-shifted configuration
collides the call returns `false` with the block (rotation, data, x, y)
exactly as before; otherwise it returns `true` with the new rotation (and
its table data) applied and the position shifted by the offset. -/
theorem claim_C6_rotate_with_offset (b : Block) (f : Field) (rotation : Rotation)
    (off : Int × Int) (hwf : b.data = blockData b.id b.r) :
    b.rotate_with_offset f rotation off =
      if (b.rotation_raw (targetRotation b.r rotation)).collision_at f off then
        (b, false)
      else
        ({ b with r := targetRotation b.r rotation,
                  data := blockData b.id (targetRotation b.r rotation),
                  x := b.x + off.1, y := b.y + off.2 }, true) := by
  unfold Block.rotate_with_offset Block.shift_raw
  by_cases h : (b.rotation_raw (targetRotation b.r rotation)).collision_at f off
  · rw [if_pos h]
    simp only [h, if_pos, Bool.false_eq_true, if_false]
    unfold Block.rotation_raw
    show ({ b with r := b.r, data := blockData b.id b.r }, false) = (b, false)
    rw [← hwf]
  · rw [if_neg h]
    simp only [h, Bool.false_eq_true, if_false, if_true]
    rfl

/-- Witness for C6: rotating a freshly spawned T-piece clockwise on the
default empty field. -/
theorem claim_C6_witness :
    (Block.new Id.T).data = blockData (Block.new Id.T).id (Block.new Id.T).r ∧
    (Block.new Id.T).rotate_with_offset Field.new Rotation.R90 (0, 0) =
      (if ((Block.new Id.T).rotation_raw
            (targetRotation (Block.new Id.T).r Rotation.R90)).collision_at Field.new (0, 0) then
        (Block.new Id.T, false)
      else
        ({ Block.new Id.T with
            r := targetRotation (Block.new Id.T).r Rotation.R90,
            data := blockData (Block.new Id.T).id
              (targetRotation (Block.new Id.T).r Rotation.R90),
            x := (Block.new Id.T).x + (0 : Int), y := (Block.new Id.T).y + (0 : Int) }, true)) :=
  ⟨rfl, claim_C6_rotate_with_offset (Block.new Id.T) Field.new Rotation.R90 (0, 0) rfl⟩

/-- `Block::offset` is a lower bound for every offset in the rotation table. -/
theorem offset_le_mem (id : Id) (r : Rotation) :
    ∀ p ∈ blockData id r,
      (Block.offset id r).1 ≤ (p.1 : Int) ∧ (Block.offset id r).2 ≤ (p.2 : Int) := by
  cases id <;> cases r <;> decide

/-- The first component of `Block::offset` is attained by some table entry. -/
theorem offset_attained_fst (id : Id) (r : Rotation) (h : id ≠ Id.None) :
    ∃ p ∈ blockData id r, (p.1 : Int) = (Block.offset id r).1 := by
  cases id <;> try exact absurd rfl h
  all_goals cases r <;> decide

/-- The second component of `Block::offset` is attained by some table entry. -/
theorem offset_attained_snd (id : Id) (r : Rotation) (h : id ≠ Id.None) :
    ∃ p ∈ blockData id r, (p.2 : Int) = (Block.offset id r).2 := by
  cases id <;> try exact absurd rfl h
  all_goals cases r <;> decide

/-- The trailing extent is an upper bound for every offset in the table. -/
theorem trailing_le_mem (id : Id) (r : Rotation) :
    ∀ p ∈ blockData id r,
      (p.1 : Int) ≤ (trailingPair (blockData id r)).1 ∧
      (p.2 : Int) ≤ (trailingPair (blockData id r)).2 := by
  cases id <;> cases r <;> decide

/-- The first component of the trailing extent is attained by some entry. -/
theorem trailing_attained_fst (id : Id) (r : Rotation) (h : id ≠ Id.None) :
    ∃ p ∈ blockData id r, (p.1 : Int) = (trailingPair (blockData id r)).1 := by
  cases id <;> try exact absurd rfl h
  all_goals cases r <;> decide

/-- The second component of the trailing extent is attained by some entry. -/
theorem trailing_attained_snd (id : Id) (r : Rotation) (h : id ≠ Id.None) :
    ∃ p ∈ blockData id r, (p.2 : Int) = (trailingPair (blockData id r)).2 := by
  cases id <;> try exact absurd rfl h
  all_goals cases r <;> decide

/-- C1 counterexample: the Z-piece in spawn rotation at position `(7, 0)` on
the default empty field has absolute cells `(7,0), (8,0), (8,1), (9,1)` —
all inside the 10 by 25 field, all on empty cells, one in the rightmost
column — yet `Block::collision` reports `true` (the per-cell test
`x + trailing.0 > width` fires at `9 + 2 > 10`), while the claim's
per-cell bound formula (the spec's wording, `collides_spec`) reports no
collision. -/
theorem claim_C1_counterexample :
    (⟨7, 0, Id.Z, Rotation.R0, blockData Id.Z Rotation.R0⟩ : Block).collision Field.new = true ∧
    collides_spec ⟨7, 0, Id.Z, Rotation.R0, blockData Id.Z Rotation.R0⟩ Field.new = false := by
  constructor
  · decide
  · decide

/-- C1 (amended): for a block whose data agrees with the rotation table,
`collision_at` is true exactly when the base position (plus query offset) is
negative in x or y, or the base plus twice the trailing extent overshoots
the right or bottom edge, or some absolute cell sits on a non-empty field
cell.  In particular the test is NOT the claim's per-cell bounds check: a
block whose cells all lie inside the field on empty cells can still collide
near the right or bottom edge. -/
theorem claim_C1_collision_characterization (b : Block) (f : Field) (xo yo : Int)
    (hd : b.data = blockData b.id b.r) (hid : b.id ≠ Id.None) :
    b.collision_at f (xo, yo) = true ↔ collisionBoundsChar b f xo yo := by
  unfold Block.collision_at collisionBoundsChar
  rw [List.any_eq_true]
  simp only [Bool.or_eq_true, decide_eq_true_eq]
  constructor
  · rintro ⟨p, hp, h⟩
    have hmem : p ∈ blockData b.id b.r := by rw [← hd]; exact hp
    have hle : b.leading.1 ≤ (p.1 : Int) ∧ b.leading.2 ≤ (p.2 : Int) :=
      offset_le_mem b.id b.r p hmem
    have htr : (p.1 : Int) ≤ b.trailing.1 ∧ (p.2 : Int) ≤ b.trailing.2 := by
      show (p.1 : Int) ≤ (trailingPair b.data).1 ∧ (p.2 : Int) ≤ (trailingPair b.data).2
      rw [hd]
      exact trailing_le_mem b.id b.r p hmem
    obtain ⟨hle1, hle2⟩ := hle
    obtain ⟨htr1, htr2⟩ := htr
    rcases h with ((((h1 | h2) | h3) | h4) | h5)
    · exact Or.inl (by omega)
    · exact Or.inr (Or.inr (Or.inl (by omega)))
    · exact Or.inr (Or.inl (by omega))
    · exact Or.inr (Or.inr (Or.inr (Or.inl (by omega))))
    · exact Or.inr (Or.inr (Or.inr (Or.inr ⟨p, hp, h5⟩)))
  · rintro (h1 | h2 | h3 | h4 | h5)
    · obtain ⟨p, hp, hpe⟩ := offset_attained_fst b.id b.r hid
      have hpe1 : (p.1 : Int) = b.leading.1 := hpe
      exact ⟨p, by rw [hd]; exact hp, Or.inl (Or.inl (Or.inl (Or.inl (by omega))))⟩
    · obtain ⟨p, hp, hpe⟩ := offset_attained_snd b.id b.r hid
      have hpe2 : (p.2 : Int) = b.leading.2 := hpe
      exact ⟨p, by rw [hd]; exact hp, Or.inl (Or.inl (Or.inr (by omega)))⟩
    · obtain ⟨p, hp, hpe⟩ := trailing_attained_fst b.id b.r hid
      have hpe1 : (p.1 : Int) = b.trailing.1 := by
        show _ = (trailingPair b.data).1
        rw [hd]
        exact hpe
      exact ⟨p, by rw [hd]; exact hp, Or.inl (Or.inl (Or.inl (Or.inr (by omega))))⟩
    · obtain ⟨p, hp, hpe⟩ := trailing_attained_snd b.id b.r hid
      have hpe2 : (p.2 : Int) = b.trailing.2 := by
        show _ = (trailingPair b.data).2
        rw [hd]
        exact hpe
      exact ⟨p, by rw [hd]; exact hp, Or.inl (Or.inr (by omega))⟩
    · obtain ⟨p, hp, hcell⟩ := h5
      exact ⟨p, hp, Or.inr hcell⟩

/-- Witness for C1 at the I-piece spawn configuration on the default field. -/
theorem claim_C1_witness :
    (Block.new Id.I).data = blockData (Block.new Id.I).id (Block.new Id.I).r ∧
    (Block.new Id.I).id ≠ Id.None ∧
    ((Block.new Id.I).collision_at Field.new (0, 0) = true ↔
      collisionBoundsChar (Block.new Id.I) Field.new 0 0) :=
  ⟨rfl, by decide,
    claim_C1_collision_characterization (Block.new Id.I) Field.new 0 0 rfl (by decide)⟩

end Tetrs
